import Mathlib

/-!
Verification of the google-apps-script-mcp repository: a shallow embedding of
the SecurityManager / PropertiesManager module (src/security.js, provided as
src/unnamed/part_000), of the GASApiService file and library operations and of
the ClaspService environment switching (src/src/services/gas-api.js), together
with proofs settling the frozen specification claims.

Modelling conventions:
- JavaScript strings are modelled as lists of Unicode code points (`JsStr`).
- Buffers and hex strings are modelled by the byte sequences they encode
  (hex encoding is a bijection between byte sequences and hex strings).
- External cryptographic primitives (MD5 inside OpenSSL EVP_BytesToKey, the
  AES-256-GCM keystream and its authentication tag) are modelled by a
  deterministic executable mixing digest: the claims depend only on
  determinism, on the keystream being a XOR pad, and on the tag being a
  function of key, IV, AAD and ciphertext that is checked for equality on
  decryption, which is exactly the GCM contract.
- Asynchronous methods are modelled as pure functions threading the remote
  state explicitly; a thrown Error is an `Except.error` carrying the message.
-/

namespace GasMcp

/-- A JavaScript string, as its list of Unicode code points. -/
abbrev JsStr := List Nat

/-- One mixing step of the model digest (a 32-bit multiply-accumulate). -/
def mixStep (acc b : Nat) : Nat := (acc * 131 + b + 1) % 4294967296

/-- Model digest accumulator over a byte/code-point sequence. -/
def mix (data : List Nat) : Nat := List.foldl mixStep 5381 data

/-- Byte i of the model digest of `data`. -/
def digestByte (data : List Nat) (i : Nat) : Nat := mix (data ++ [i]) % 256

/-- A 16-byte model digest block, standing in for one MD5/SHA block output. -/
def digestBlock (data : List Nat) : List Nat := (List.range 16).map (digestByte data)

/-- Model of OpenSSL EVP_BytesToKey round 1: D1 = H(password). -/
def evpD1 (password : List Nat) : List Nat := digestBlock password

/-- Model of OpenSSL EVP_BytesToKey round 2: D2 = H(D1 ++ password). -/
def evpD2 (password : List Nat) : List Nat := digestBlock (evpD1 password ++ password)

/-- Model of OpenSSL EVP_BytesToKey round 3: D3 = H(D2 ++ password). -/
def evpD3 (password : List Nat) : List Nat := digestBlock (evpD2 password ++ password)

/-- The 32-byte AES key derived by Node `crypto.createCipher` from its
password argument alone (EV P_BytesToKey with no salt): key = D1 ++ D2. -/
def evpKey (password : List Nat) : List Nat := evpD1 password ++ evpD2 password

/-- The cipher IV derived by Node `crypto.createCipher` from its password
argument alone: iv = D3. `createCipher` accepts no IV parameter, so this
derived IV is the only IV the cipher is ever keyed with. -/
def evpIV (password : List Nat) : List Nat := evpD3 password

/-- Byte i of the CTR keystream for a derived key and IV (model of the
AES-CTR keystream underlying GCM). -/
def keystreamByte (key iv : List Nat) (i : Nat) : Nat := digestByte (key ++ iv) i

/-- XOR a byte sequence against the keystream starting at counter `i`.
This both encrypts and decrypts (CTR mode is an involution). -/
def ctrXor (key iv : List Nat) : Nat → List Nat → List Nat
  | _, [] => []
  | i, b :: bs => (b ^^^ keystreamByte key iv i) :: ctrXor key iv (i + 1) bs

/-- The GCM authentication tag: a 16-byte function of the derived key, the
cipher IV, the additional authenticated data and the ciphertext. -/
def authTagOf (key iv aad ct : List Nat) : List Nat := digestBlock (key ++ iv ++ aad ++ ct)

/-- The AAD string 'gas-mcp' set by cipher.setAAD, as UTF-8 bytes. -/
def gasMcpAad : List Nat := [103, 97, 115, 45, 109, 99, 112]

/-- The encryption envelope returned by SecurityManager.encrypt:
{ encrypted, iv, authTag }, each field a hex string modelled by its bytes. -/
structure Envelope where
  encrypted : List Nat
  iv : List Nat
  authTag : List Nat

/-- SecurityManager: holds the 32-byte encryption key (from ENCRYPTION_KEY
or freshly generated); algorithm is fixed to aes-256-gcm. -/
structure SecurityManager where
  encryptionKey : List Nat

/-- SecurityManager.encrypt (src/unnamed/part_000 lines 38-58): draws 12
fresh random bytes into `iv`, then calls `crypto.createCipher(algorithm,
this.encryptionKey)` - note: createCipher, not createCipheriv, so the cipher
is keyed with the EVP-derived key and EVP-derived IV from the password alone
and the random `iv` bytes never reach the cipher; they are only stored in
the returned envelope. `rand12` is the value `crypto.randomBytes(12)`
returned on this call. -/
def SecurityManager.encrypt (sm : SecurityManager) (rand12 : List Nat) (text : JsStr) : Envelope :=
  let iv := rand12
  let key := evpKey sm.encryptionKey
  let civ := evpIV sm.encryptionKey
  let ct := ctrXor key civ 0 text
  { encrypted := ct, iv := iv, authTag := authTagOf key civ gasMcpAad ct }

/-- The IV the cipher is actually keyed with during one encrypt call whose
crypto.randomBytes(12) returned `rand12`: createCipher derives it from the
password (encryption key) only. -/
def SecurityManager.encryptCipherIV (sm : SecurityManager) (rand12 : List Nat) : List Nat :=
  evpIV sm.encryptionKey

/-- The message of the Error thrown by SecurityManager.decrypt when
decipher.final() rejects the authentication tag. -/
def decryptFailMsg : String := "decryption failed: unable to authenticate data"

/-- SecurityManager.decrypt (src/unnamed/part_000 lines 63-79): creates the
decipher via `crypto.createDecipher(algorithm, this.encryptionKey)` (same
EVP derivation; the envelope `iv` field is destructured but never used),
sets the AAD and the envelope's authTag, and fails if the tag does not
match the tag of the ciphertext under the derived key and IV. -/
def SecurityManager.decrypt (sm : SecurityManager) (e : Envelope) : Except String JsStr :=
  let key := evpKey sm.encryptionKey
  let civ := evpIV sm.encryptionKey
  if e.authTag = authTagOf key civ gasMcpAad e.encrypted then
    Except.ok (ctrXor key civ 0 e.encrypted)
  else
    Except.error decryptFailMsg

/-- An envelope with byte `i` of the authentication tag XOR-flipped by
`mask` (flipping any bit pattern `mask` of that byte). -/
def flipTagByte (e : Envelope) (i mask : Nat) : Envelope :=
  { e with authTag := e.authTag.set i (e.authTag.getD i 0 ^^^ mask) }

/-- The three-character mask string returned by maskApiKey. -/
def star3 : JsStr := [42, 42, 42]

/-- SecurityManager.maskApiKey (src/unnamed/part_000 lines 84-89): a falsy
apiKey (null/undefined modelled as `none`, the empty string) or one shorter
than 8 characters masks to stars only; otherwise the first 4 and last 4
characters are revealed around the stars. -/
def SecurityManager.maskApiKey (apiKey : Option JsStr) : JsStr :=
  match apiKey with
  | none => star3
  | some s =>
    if s = [] ∨ s.length < 8 then star3
    else s.take 4 ++ star3 ++ s.drop (s.length - 4)

theorem xor_eq_self_iff_zero (a mask : Nat) (h : a ^^^ mask = a) : mask = 0 := by
  have h2 : a ^^^ (a ^^^ mask) = a ^^^ a := by rw [h]
  rwa [← Nat.xor_assoc, Nat.xor_self, Nat.zero_xor] at h2

theorem ctrXor_involution (key iv : List Nat) :
    ∀ (i : Nat) (bs : List Nat), ctrXor key iv i (ctrXor key iv i bs) = bs := by
  intro i bs
  induction bs generalizing i with
  | nil => rfl
  | cons b t ih =>
    simp only [ctrXor, ih]
    rw [Nat.xor_assoc, Nat.xor_self, Nat.xor_zero]

theorem set_xor_ne (l : List Nat) (i mask : Nat) (hi : i < l.length) (hm : mask ≠ 0) :
    l.set i (l.getD i 0 ^^^ mask) ≠ l := by
  intro hEq
  have hset : (l.set i (l.getD i 0 ^^^ mask)).getD i 0 = l.getD i 0 ^^^ mask := by
    have := List.getElem_set_self (l := l) (i := i) (a := l.getD i 0 ^^^ mask)
      (h := by simpa using hi)
    rw [List.getD_eq_getElem?_getD, List.getElem?_eq_getElem (by simpa using hi)]
    simpa using this
  rw [hEq] at hset
  exact hm (xor_eq_self_iff_zero _ _ hset.symm)

/-- decrypt inverts encrypt under the same SecurityManager key (shared
helper: the envelope's tag is by construction the tag of its ciphertext,
and CTR XOR is an involution). -/
theorem decrypt_encrypt (sm : SecurityManager) (rand12 : List Nat) (text : JsStr) :
    sm.decrypt (sm.encrypt rand12 text) = Except.ok text := by
  simp [SecurityManager.encrypt, SecurityManager.decrypt, ctrXor_involution]

/-- Claim C1: for every string x, decrypt (encrypt x) returns x; and for every
envelope produced by encrypt, decrypt fails with the thrown decryption-failure
error (CryptoError) whenever any byte of the envelope's authentication tag is
flipped. -/
theorem C1_encrypt_decrypt_roundtrip_tag_tamper
    (sm : SecurityManager) (rand12 : List Nat) (text : JsStr) (i mask : Nat)
    (hi : i < (sm.encrypt rand12 text).authTag.length) (hm : mask ≠ 0) :
    sm.decrypt (sm.encrypt rand12 text) = Except.ok text ∧
    sm.decrypt (flipTagByte (sm.encrypt rand12 text) i mask) = Except.error decryptFailMsg := by
  refine ⟨decrypt_encrypt sm rand12 text, ?_⟩
  have hne := set_xor_ne ((sm.encrypt rand12 text).authTag) i mask hi hm
  simp only [SecurityManager.encrypt, flipTagByte] at hne ⊢
  simp only [SecurityManager.decrypt]
  rw [if_neg]
  exact hne

/-- Witness for C1 at a concrete key, randomness, plaintext, tag position 0
and flip mask 1. -/
theorem C1_witness :
    0 < ((SecurityManager.mk [1, 2]).encrypt [7, 7, 7] [104, 105]).authTag.length ∧
    (1 : Nat) ≠ 0 ∧
    ((SecurityManager.mk [1, 2]).decrypt
        ((SecurityManager.mk [1, 2]).encrypt [7, 7, 7] [104, 105]) = Except.ok [104, 105] ∧
      (SecurityManager.mk [1, 2]).decrypt
        (flipTagByte ((SecurityManager.mk [1, 2]).encrypt [7, 7, 7] [104, 105]) 0 1) =
        Except.error decryptFailMsg) :=
  ⟨by decide, by decide,
    C1_encrypt_decrypt_roundtrip_tag_tamper (SecurityManager.mk [1, 2]) [7, 7, 7]
      [104, 105] 0 1 (by decide) (by decide)⟩

/-- Claim C2 (refuted; code bug): across two encrypt calls under the same key,
the IV actually keying the cipher is identical no matter what fresh random
bytes each call drew, because createCipher derives the cipher IV from the
password alone and ignores the drawn bytes; observably, the ciphertext and
the authentication tag do not depend on the drawn randomness at all. -/
theorem C2_cipher_iv_reused_across_calls
    (sm : SecurityManager) (r1 r2 : List Nat) (text : JsStr) :
    sm.encryptCipherIV r1 = sm.encryptCipherIV r2 ∧
    (sm.encrypt r1 text).encrypted = (sm.encrypt r2 text).encrypted ∧
    (sm.encrypt r1 text).authTag = (sm.encrypt r2 text).authTag :=
  ⟨rfl, rfl, rfl⟩

/-- Claim C10: maskApiKey reveals the first 4 and last 4 characters around
the stars for inputs of length at least 8 (hence reveals every character of
a length-8 secret), and returns the bare stars for falsy or short inputs. -/
theorem C10_maskApiKey_spec (s : JsStr) :
    (8 ≤ s.length →
      SecurityManager.maskApiKey (some s) = s.take 4 ++ star3 ++ s.drop (s.length - 4)) ∧
    (s.length = 8 → s.take 4 ++ s.drop (s.length - 4) = s) ∧
    (s.length < 8 → SecurityManager.maskApiKey (some s) = star3) ∧
    SecurityManager.maskApiKey none = star3 := by
  refine ⟨?_, ?_, ?_, rfl⟩
  · intro h8
    have hne : ¬(s = [] ∨ s.length < 8) := by
      rintro (hnil | hlt)
      · rw [hnil] at h8; simp at h8
      · omega
    simp [SecurityManager.maskApiKey, hne]
  · intro h8
    rw [h8]
    exact List.take_append_drop 4 s
  · intro hlt
    simp [SecurityManager.maskApiKey, hlt]

/-- Witness for C10 at a length-8 secret and at a short secret. -/
theorem C10_witness :
    8 ≤ ([97, 98, 99, 100, 101, 102, 103, 104] : JsStr).length ∧
    (SecurityManager.maskApiKey (some [97, 98, 99, 100, 101, 102, 103, 104]) =
        [97, 98, 99, 100] ++ star3 ++ [101, 102, 103, 104] ∧
      [97, 98, 99, 100] ++ [101, 102, 103, 104] = ([97, 98, 99, 100, 101, 102, 103, 104] : JsStr) ∧
      SecurityManager.maskApiKey (some [120, 121]) = star3) := by
  refine ⟨by decide, ?_, ?_, ?_⟩
  · have h := (C10_maskApiKey_spec [97, 98, 99, 100, 101, 102, 103, 104]).1 (by decide)
    simpa using h
  · have h := (C10_maskApiKey_spec [97, 98, 99, 100, 101, 102, 103, 104]).2.1 (by decide)
    simpa using h
  · exact (C10_maskApiKey_spec [120, 121]).2.2.1 (by decide)

/-- Model of a JavaScript JSON value (the values JSON.parse can produce and
JSON.stringify can consume). Object field names are the string literals
appearing in the code. -/
inductive Json where
  | jstr (s : JsStr)
  | jnum (n : Int)
  | jbool (b : Bool)
  | jnull
  | jarr (xs : List Json)
  | jobj (fields : List (String × Json))

/-- The code points of a Lean string literal. -/
def strBytes (s : String) : JsStr := s.data.map Char.toNat

/-- JSON string escaping for one code point (quote and backslash; the
control-character escapes are not needed by any value this code builds). -/
def escapeCp (c : Nat) : List Nat := if c == 34 || c == 92 then [92, c] else [c]

/-- Decimal rendering of an integer, as code points. -/
def intRender (n : Int) : JsStr :=
  (if n < 0 then [45] else []) ++ (Nat.toDigits 10 n.natAbs).map Char.toNat

mutual

/-- JSON.stringify of a JSON value, as code points. -/
def jsonRender : Json → JsStr
  | Json.jstr s => 34 :: (s.map escapeCp).flatten ++ [34]
  | Json.jnum n => intRender n
  | Json.jbool true => [116, 114, 117, 101]
  | Json.jbool false => [102, 97, 108, 115, 101]
  | Json.jnull => [110, 117, 108, 108]
  | Json.jarr xs => 91 :: jsonRenderList xs ++ [93]
  | Json.jobj fs => 123 :: jsonRenderFields fs ++ [125]

/-- Comma-separated rendering of array elements. -/
def jsonRenderList : List Json → JsStr
  | [] => []
  | [x] => jsonRender x
  | x :: y :: xs => jsonRender x ++ 44 :: jsonRenderList (y :: xs)

/-- Comma-separated rendering of object fields. -/
def jsonRenderFields : List (String × Json) → JsStr
  | [] => []
  | [f] => 34 :: strBytes f.1 ++ [34, 58] ++ jsonRender f.2
  | f :: g :: fs => 34 :: strBytes f.1 ++ [34, 58] ++ jsonRender f.2 ++ 44 :: jsonRenderFields (g :: fs)

end

/-- Model of a JavaScript string in the role of a remotely stored property
value, classified by what JSON.parse does to it: `jsonText j` is a string
whose JSON.parse yields the value j (e.g. any JSON.stringify output), and
`plainText s` is a string that JSON.parse rejects. -/
inductive RawValue where
  | jsonText (j : Json)
  | plainText (s : JsStr)

/-- The underlying character content of a stored raw string. -/
def RawValue.content : RawValue → JsStr
  | RawValue.jsonText j => jsonRender j
  | RawValue.plainText s => s

/-- JSON.parse on a stored raw string: the classified outcome (an exception
in the source is `none` here; every call site wraps the parse in try/catch). -/
def jsonParse : RawValue → Option Json
  | RawValue.jsonText j => some j
  | RawValue.plainText _ => none

/-- Model of the JavaScript property access `v.name`: throws (TypeError) when
v is null, yields undefined (`none`) on other primitives, and looks the field
up when v is an object. -/
def jsGet : Json → String → Except Unit (Option Json)
  | Json.jnull, _ => Except.error ()
  | Json.jobj fs, name => Except.ok (List.lookup name fs)
  | _, _ => Except.ok none

/-- JavaScript truthiness of a JSON value. -/
def jsTruthy : Json → Bool
  | Json.jnull => false
  | Json.jbool b => b
  | Json.jnum n => n != 0
  | Json.jstr s => !s.isEmpty
  | Json.jarr _ => true
  | Json.jobj _ => true

/-- Truthiness of a possibly-undefined value (undefined is falsy). -/
def optTruthy : Option Json → Bool
  | some j => jsTruthy j
  | none => false

/-- The remote script property store of one project: key to raw string value;
later writes shadow earlier ones (lookup takes the first hit). -/
abbrev Store := List (String × RawValue)

/-- PropertiesService.getProperty(key). -/
def storeGet : Store → String → Option RawValue
  | [], _ => none
  | e :: rest, k => if e.1 == k then some e.2 else storeGet rest k

/-- PropertiesService.setProperty(key, value). -/
def storeSet (st : Store) (k : String) (v : RawValue) : Store := (k, v) :: st

/-- The JSON envelope built by setSecureProperty around an encryption result:
JSON.stringify of the object literal with the sentinel, the data and the
timestamp, in source order. -/
def envelopeJson (e : Envelope) (now : JsStr) : Json :=
  Json.jobj
    [("_encrypted", Json.jbool true),
     ("data", Json.jobj
        [("encrypted", Json.jstr e.encrypted),
         ("iv", Json.jstr e.iv),
         ("authTag", Json.jstr e.authTag)]),
     ("timestamp", Json.jstr now)]

/-- The value argument of setSecureProperty, classified the way the source's
typeof check classifies it: a JS string (with its parse classification), a
number, or another (object) value. -/
inductive SetVal where
  | vstr (r : RawValue)
  | vnum (n : Int)
  | vobj (j : Json)

/-- The result object returned by setSecureProperty. -/
structure SetResult where
  key : String
  encrypted : Bool
  timestamp : JsStr
deriving DecidableEq

/-- The string a non-string object value becomes when the remote
PropertiesService coerces it for storage (String(value) of a plain object);
it does not parse as JSON. -/
def objectCoercionStr : JsStr := strBytes "[object Object]"

/-- PropertiesManager: composes the gas API (modelled as the store itself)
with a SecurityManager. -/
structure PropertiesManager where
  security : SecurityManager

/-- PropertiesManager.setSecureProperty (src/unnamed/part_000 lines 168-200):
when encrypt is requested and the value is a string, the value is encrypted
and wrapped in the sentinel envelope before storage; otherwise the value is
stored as it is (a number is coerced remotely to its decimal text, which
parses as a JSON number; an object to its object-coercion text, which does
not parse). The returned result reports `encrypted: encrypt` regardless of
whether any encryption happened. `rand12` is the randomness drawn by the
inner encrypt call and `now` the current timestamp. The temporary-script
execution transport (executePropertiesOperation) is modelled as the direct
store update it performs remotely. -/
def PropertiesManager.setSecureProperty (pm : PropertiesManager) (rand12 : List Nat)
    (now : JsStr) (store : Store) (key : String) (value : SetVal) (encrypt : Bool) :
    Store × SetResult :=
  let finalValue : RawValue :=
    match value with
    | SetVal.vstr r =>
        if encrypt then
          RawValue.jsonText (envelopeJson (pm.security.encrypt rand12 (RawValue.content r)) now)
        else r
    | SetVal.vnum n => RawValue.jsonText (Json.jnum n)
    | SetVal.vobj _ => RawValue.plainText objectCoercionStr
  (storeSet store key finalValue, { key := key, encrypted := encrypt, timestamp := now })

/-- The value getSecureProperty resolves to: null when the property is
absent, the raw stored string, or a decrypted plaintext string. -/
inductive GetResult where
  | gnull
  | graw (r : RawValue)
  | gdec (s : JsStr)

/-- Extraction of the envelope fields done by decrypt's destructuring of
`parsed.data` (Buffer.from on each hex field); anything not of the produced
shape makes decrypt throw. -/
def envelopeOfJson (j : Json) : Option Envelope :=
  match jsGet j "encrypted", jsGet j "iv", jsGet j "authTag" with
  | Except.ok (some (Json.jstr e)), Except.ok (some (Json.jstr iv)), Except.ok (some (Json.jstr t)) =>
      some { encrypted := e, iv := iv, authTag := t }
  | _, _, _ => none

/-- PropertiesManager.getSecureProperty (src/unnamed/part_000 lines 205-243):
a missing property yields null; with decrypt disabled the raw value is
returned; otherwise the raw value is JSON.parsed and, when the parse
succeeds and both the sentinel and the data field are truthy, the data is
decrypted and returned - any failure inside that attempt (parse error,
property access on null, malformed data, tag mismatch) falls through the
catch and returns the raw value unchanged. -/
def PropertiesManager.getSecureProperty (pm : PropertiesManager) (store : Store)
    (key : String) (decrypt : Bool) : GetResult :=
  match storeGet store key with
  | none => GetResult.gnull
  | some rawValue =>
    if !decrypt then GetResult.graw rawValue
    else
      match jsonParse rawValue with
      | none => GetResult.graw rawValue
      | some parsed =>
        match jsGet parsed "_encrypted", jsGet parsed "data" with
        | Except.ok encField, Except.ok dataField =>
          if optTruthy encField && optTruthy dataField then
            match dataField with
            | some dataJson =>
              match envelopeOfJson dataJson with
              | some env =>
                match pm.security.decrypt env with
                | Except.ok d => GetResult.gdec d
                | Except.error _ => GetResult.graw rawValue
              | none => GetResult.graw rawValue
            | none => GetResult.graw rawValue
          else GetResult.graw rawValue
        | _, _ => GetResult.graw rawValue

/-- Whether a stored raw value parses as a JSON envelope whose encrypted
sentinel is set (the marker the code branches on throughout). -/
def isEncryptedEnvelope (r : RawValue) : Bool :=
  match jsonParse r with
  | some parsed =>
    match jsGet parsed "_encrypted" with
    | Except.ok f => optTruthy f
    | Except.error _ => false
  | none => false

theorem storeGet_storeSet (st : Store) (k : String) (v : RawValue) :
    storeGet (storeSet st k v) k = some v := by
  simp [storeGet, storeSet]

theorem envelope_eta (e : Envelope) :
    Envelope.mk e.encrypted e.iv e.authTag = e := rfl

/-- Claim C4: after setSecureProperty with encryption on a string value, the
stored raw value is the JSON envelope carrying the encrypted sentinel
together with ciphertext, IV and authentication tag, and getSecureProperty
with decryption returns the original string. -/
theorem C4_set_get_roundtrip_and_envelope (pm : PropertiesManager) (rand12 : List Nat)
    (now : JsStr) (store : Store) (key : String) (r : RawValue) :
    pm.getSecureProperty (pm.setSecureProperty rand12 now store key (SetVal.vstr r) true).1
        key true = GetResult.gdec (RawValue.content r) ∧
    storeGet (pm.setSecureProperty rand12 now store key (SetVal.vstr r) true).1 key =
      some (RawValue.jsonText
        (envelopeJson (pm.security.encrypt rand12 (RawValue.content r)) now)) ∧
    isEncryptedEnvelope
      (RawValue.jsonText (envelopeJson (pm.security.encrypt rand12 (RawValue.content r)) now)) =
      true ∧
    jsGet (envelopeJson (pm.security.encrypt rand12 (RawValue.content r)) now) "data" =
      Except.ok (some (Json.jobj
        [("encrypted", Json.jstr (pm.security.encrypt rand12 (RawValue.content r)).encrypted),
         ("iv", Json.jstr (pm.security.encrypt rand12 (RawValue.content r)).iv),
         ("authTag", Json.jstr (pm.security.encrypt rand12 (RawValue.content r)).authTag)])) := by
  refine ⟨?_, ?_, ?_, ?_⟩
  · simp [PropertiesManager.getSecureProperty, PropertiesManager.setSecureProperty,
      storeGet_storeSet, storeGet, storeSet, jsonParse, jsGet, envelopeJson,
      envelopeOfJson, jsTruthy, optTruthy, List.lookup, envelope_eta, decrypt_encrypt]
  · simp [PropertiesManager.setSecureProperty, storeGet_storeSet]
  · simp [isEncryptedEnvelope, jsonParse, jsGet, envelopeJson, optTruthy, jsTruthy,
      List.lookup]
  · simp [jsGet, envelopeJson, List.lookup]

/-- Claim C9: setSecureProperty with encrypt=true on a non-string value (a
number or an object) stores the value with no envelope wrapping - the stored
raw value carries no encrypted sentinel - while the returned result still
reports encrypted: true. -/
theorem C9_nonstring_not_encrypted_but_reported (pm : PropertiesManager)
    (rand12 : List Nat) (now : JsStr) (store : Store) (key : String) (n : Int) (j : Json) :
    pm.setSecureProperty rand12 now store key (SetVal.vnum n) true =
      (storeSet store key (RawValue.jsonText (Json.jnum n)),
        { key := key, encrypted := true, timestamp := now }) ∧
    isEncryptedEnvelope (RawValue.jsonText (Json.jnum n)) = false ∧
    pm.setSecureProperty rand12 now store key (SetVal.vobj j) true =
      (storeSet store key (RawValue.plainText objectCoercionStr),
        { key := key, encrypted := true, timestamp := now }) ∧
    isEncryptedEnvelope (RawValue.plainText objectCoercionStr) = false := by
  refine ⟨rfl, ?_, rfl, rfl⟩
  simp [isEncryptedEnvelope, jsonParse, jsGet, optTruthy]

/-- ASCII lowering of one character (model of String.prototype.toLowerCase;
all keywords compared against are ASCII). -/
def lowerCp (c : Char) : Char :=
  if 65 ≤ c.toNat ∧ c.toNat ≤ 90 then Char.ofNat (c.toNat + 32) else c

/-- key.toLowerCase(). -/
def lowerStr (s : String) : String := String.mk (s.data.map lowerCp)

/-- Whether the first list starts the second (needle leads hay). -/
def leadsWith {α : Type} [BEq α] : List α → List α → Bool
  | [], _ => true
  | _ :: _, [] => false
  | a :: as, b :: bs => a == b && leadsWith as bs

/-- Model of JavaScript String.prototype.includes: the needle occurs as a
contiguous segment of the hay. -/
def listIncludes {α : Type} [BEq α] (hay needle : List α) : Bool :=
  (List.range (hay.length + 1)).any (fun i => leadsWith needle (hay.drop i))

/-- The fixed sensitive-keyword list of auditProperties, in source order. -/
def sensitiveKeywords : List String :=
  ["api_key", "apikey", "secret", "password", "token", "auth",
   "credential", "private", "key", "pass", "pwd"]

/-- The sensitivity heuristic: the lowercased key contains some keyword. -/
def isSensitiveKey (key : String) : Bool :=
  sensitiveKeywords.any (fun kw => listIncludes (lowerStr key).data kw.data)

/-- The advisory recommendations auditProperties can emit, in structure:
the keyword advisory with its count and joined key list, the
more-plaintext-than-encrypted advisory, and the no-properties advisory. -/
inductive Recommendation where
  | encryptSuspicious (count : Nat) (keys : List String)
  | morePlaintextThanEncrypted
  | noProperties
deriving DecidableEq

/-- The audit object built by auditProperties. -/
structure AuditReport where
  totalProperties : Nat
  encryptedProperties : Nat
  plaintextProperties : Nat
  suspiciousKeys : List String
  recommendations : List Recommendation
deriving DecidableEq

/-- The catch branch of the audit loop (JSON.parse threw, or the property
access on a parsed null threw): count the property as plaintext and flag
its key when the sensitivity heuristic fires. -/
def auditCatch (a : AuditReport) (key : String) : AuditReport :=
  let a2 := { a with plaintextProperties := a.plaintextProperties + 1 }
  if isSensitiveKey key then { a2 with suspiciousKeys := a2.suspiciousKeys ++ [key] }
  else a2

/-- One iteration of the audit loop over a property (src/unnamed/part_000
lines 417-438): parse the value; on success branch on the truthiness of
parsed._encrypted (property access on null throws into the catch); on parse
failure fall into the catch branch - only the catch branch runs the
sensitive-keyword check. -/
def auditStep (a : AuditReport) (kv : String × RawValue) : AuditReport :=
  match jsonParse kv.2 with
  | some parsed =>
    match jsGet parsed "_encrypted" with
    | Except.ok f =>
      if optTruthy f then { a with encryptedProperties := a.encryptedProperties + 1 }
      else { a with plaintextProperties := a.plaintextProperties + 1 }
    | Except.error _ => auditCatch a kv.1
  | none => auditCatch a kv.1

/-- PropertiesManager.auditProperties (src/unnamed/part_000 lines 399-465)
applied to the property mapping fetched with decryption disabled (which
returns the stored raw values unchanged): classify every property, then
derive the advisory recommendations. -/
def auditProperties (props : List (String × RawValue)) : AuditReport :=
  let base := props.foldl auditStep
    { totalProperties := props.length, encryptedProperties := 0,
      plaintextProperties := 0, suspiciousKeys := [], recommendations := [] }
  let recs1 :=
    if 0 < base.suspiciousKeys.length then
      [Recommendation.encryptSuspicious base.suspiciousKeys.length base.suspiciousKeys]
    else []
  let recs2 :=
    if base.encryptedProperties < base.plaintextProperties then
      [Recommendation.morePlaintextThanEncrypted]
    else []
  let recs3 := if base.totalProperties = 0 then [Recommendation.noProperties] else []
  { base with recommendations := recs1 ++ recs2 ++ recs3 }

/-- Whether the audit loop lands in its catch branch for this stored value:
JSON.parse rejects it, or it parses to null so the sentinel access throws. -/
def auditParseThrew (r : RawValue) : Bool :=
  match jsonParse r with
  | some parsed =>
    match jsGet parsed "_encrypted" with
    | Except.ok _ => false
    | Except.error _ => true
  | none => true

theorem auditStep_eq (a : AuditReport) (kv : String × RawValue) :
    auditStep a kv =
      if isEncryptedEnvelope kv.2 then
        { a with encryptedProperties := a.encryptedProperties + 1 }
      else if auditParseThrew kv.2 then auditCatch a kv.1
      else { a with plaintextProperties := a.plaintextProperties + 1 } := by
  unfold auditStep isEncryptedEnvelope auditParseThrew
  cases h : jsonParse kv.2 with
  | none => simp
  | some parsed =>
    cases h2 : jsGet parsed "_encrypted" with
    | error e => simp [h2]
    | ok f =>
      by_cases h3 : optTruthy f = true
      · simp [h2, h3]
      · simp [h2, h3]

theorem auditFold_spec (props : List (String × RawValue)) :
    ∀ (a : AuditReport),
      (props.foldl auditStep a).encryptedProperties =
        a.encryptedProperties + props.countP (fun kv => isEncryptedEnvelope kv.2) ∧
      (props.foldl auditStep a).plaintextProperties =
        a.plaintextProperties + props.countP (fun kv => !isEncryptedEnvelope kv.2) ∧
      (props.foldl auditStep a).suspiciousKeys =
        a.suspiciousKeys ++
          (props.filter (fun kv => auditParseThrew kv.2 && isSensitiveKey kv.1)).map Prod.fst ∧
      (props.foldl auditStep a).totalProperties = a.totalProperties ∧
      (props.foldl auditStep a).recommendations = a.recommendations := by
  induction props with
  | nil => intro a; simp
  | cons kv rest ih =>
    intro a
    have hstep := auditStep_eq a kv
    by_cases he : isEncryptedEnvelope kv.2 = true
    · have henv : auditParseThrew kv.2 = false := by
        revert he
        unfold isEncryptedEnvelope auditParseThrew
        cases h4 : jsonParse kv.2 with
        | none => simp
        | some parsed =>
          cases h5 : jsGet parsed "_encrypted" with
          | error e => simp [h5]
          | ok f => simp [h5]
      simp only [List.foldl_cons, hstep, he, if_true]
      rcases ih ({ a with encryptedProperties := a.encryptedProperties + 1 }) with
        ⟨i1, i2, i3, i4, i5⟩
      refine ⟨?_, ?_, ?_, ?_, ?_⟩
      · rw [i1]; simp [List.countP_cons, he]; omega
      · rw [i2]; simp [List.countP_cons, he]
      · rw [i3]; simp [List.filter_cons, henv]
      · rw [i4]
      · rw [i5]
    · have he2 : isEncryptedEnvelope kv.2 = false := by
        cases h : isEncryptedEnvelope kv.2
        · rfl
        · exact absurd h he
      by_cases ht : auditParseThrew kv.2 = true
      · by_cases hs : isSensitiveKey kv.1 = true
        · simp only [List.foldl_cons, hstep, he2, if_false, ht, if_true, Bool.false_eq_true,
            auditCatch, hs]
          rcases ih ({ { a with plaintextProperties := a.plaintextProperties + 1 } with
              suspiciousKeys := a.suspiciousKeys ++ [kv.1] }) with ⟨i1, i2, i3, i4, i5⟩
          refine ⟨?_, ?_, ?_, ?_, ?_⟩
          · rw [i1]; simp [List.countP_cons, he2]
          · rw [i2]; simp [List.countP_cons, he2]; omega
          · rw [i3]; simp [List.filter_cons, ht, hs]
          · rw [i4]
          · rw [i5]
        · have hs2 : isSensitiveKey kv.1 = false := by
            cases h : isSensitiveKey kv.1
            · rfl
            · exact absurd h hs
          simp only [List.foldl_cons, hstep, he2, if_false, ht, if_true, Bool.false_eq_true,
            auditCatch, hs2]
          rcases ih ({ a with plaintextProperties := a.plaintextProperties + 1 }) with
            ⟨i1, i2, i3, i4, i5⟩
          refine ⟨?_, ?_, ?_, ?_, ?_⟩
          · rw [i1]; simp [List.countP_cons, he2]
          · rw [i2]; simp [List.countP_cons, he2]; omega
          · rw [i3]; simp [List.filter_cons, hs2]
          · rw [i4]
          · rw [i5]
      · have ht2 : auditParseThrew kv.2 = false := by
          cases h : auditParseThrew kv.2
          · rfl
          · exact absurd h ht
        simp only [List.foldl_cons, hstep, he2, ht2, if_false, Bool.false_eq_true]
        rcases ih ({ a with plaintextProperties := a.plaintextProperties + 1 }) with
          ⟨i1, i2, i3, i4, i5⟩
        refine ⟨?_, ?_, ?_, ?_, ?_⟩
        · rw [i1]; simp [List.countP_cons, he2]
        · rw [i2]; simp [List.countP_cons, he2]; omega
        · rw [i3]; simp [List.filter_cons, ht2]
        · rw [i4]
        · rw [i5]

/-- Claim C6 (amended): auditProperties classifies a property as encrypted
exactly when its stored value parses as JSON with a truthy encrypted
sentinel and as plaintext otherwise, but its suspiciousKeys are exactly the
properties whose value lands in the parse-failure branch (JSON.parse throws,
or the parse yields null) and whose key matches the keyword heuristic -
plaintext-classified properties whose value parses as JSON are never
keyword-checked. -/
theorem C6_audit_classification (props : List (String × RawValue)) :
    (auditProperties props).encryptedProperties =
      props.countP (fun kv => isEncryptedEnvelope kv.2) ∧
    (auditProperties props).plaintextProperties =
      props.countP (fun kv => !isEncryptedEnvelope kv.2) ∧
    (auditProperties props).suspiciousKeys =
      (props.filter (fun kv => auditParseThrew kv.2 && isSensitiveKey kv.1)).map Prod.fst ∧
    (auditProperties props).totalProperties = props.length := by
  rcases auditFold_spec props
      { totalProperties := props.length, encryptedProperties := 0,
        plaintextProperties := 0, suspiciousKeys := [], recommendations := [] } with
    ⟨i1, i2, i3, i4, i5⟩
  unfold auditProperties
  refine ⟨?_, ?_, ?_, ?_⟩
  · simpa using i1
  · simpa using i2
  · simpa using i3
  · simpa using i4

/-- Counterexample to claim C6 as stated: the property key api_key matches
the sensitive-keyword heuristic and its stored value is classified
plaintext, yet it is not included in suspiciousKeys, because its value
parses as JSON (an object without the sentinel) and the keyword check only
runs in the parse-failure branch. -/
theorem C6_counterexample :
    isEncryptedEnvelope (RawValue.jsonText (Json.jobj [])) = false ∧
    (auditProperties [("api_key", RawValue.jsonText (Json.jobj []))]).plaintextProperties = 1 ∧
    isSensitiveKey "api_key" = true ∧
    (auditProperties [("api_key", RawValue.jsonText (Json.jobj []))]).suspiciousKeys = [] := by
  refine ⟨rfl, rfl, ?_, rfl⟩
  decide

/-- Encoding of a stored raw value used by the checksum model. -/
def encodeRaw : RawValue → List Nat
  | RawValue.jsonText j => 0 :: jsonRender j
  | RawValue.plainText s => 1 :: s

/-- Encoding of the property mapping: the byte stream whose digest models
createHash(JSON.stringify(properties)). -/
def encodeProps (props : List (String × RawValue)) : List Nat :=
  props.foldr (fun kv acc => 2 :: strBytes kv.1 ++ 3 :: encodeRaw kv.2 ++ acc) []

/-- Model of SecurityManager.createHash (a sha256 hex digest): the model
digest block of the serialized input. -/
def createHashBytes (data : List Nat) : List Nat := digestBlock data

/-- The checksum backupProperties stores and restoreProperties recomputes:
the hash of the serialized property mapping. -/
def checksumOf (props : List (String × RawValue)) : List Nat :=
  createHashBytes (encodeProps props)

/-- The backup object produced by backupProperties. -/
structure Backup where
  timestamp : JsStr
  scriptId : String
  propertyCount : Nat
  includeEncrypted : Bool
  properties : List (String × RawValue)
  checksum : List Nat

/-- The message of the IntegrityError thrown on checksum mismatch, as
rethrown wrapped by the restore catch handler. -/
def restoreMismatchMsg : String := "property restore failed: backup checksum mismatch"

/-- PropertiesManager.restoreProperties (src/unnamed/part_000 lines 498-526):
with verification requested, the checksum of the backup's stored mapping is
recomputed first and a mismatch throws before the restore loop runs a single
setSecureProperty; otherwise every property is re-set through
setSecureProperty with encryption on unless the backup stored encrypted
values, and the write count is returned. -/
def PropertiesManager.restoreProperties (pm : PropertiesManager) (rand12 : List Nat)
    (now : JsStr) (store : Store) (backup : Backup) (verifyChecksum : Bool) :
    Store × Except String Nat :=
  if verifyChecksum ∧ checksumOf backup.properties ≠ backup.checksum then
    (store, Except.error restoreMismatchMsg)
  else
    let final := backup.properties.foldl
      (fun acc kv =>
        ((pm.setSecureProperty rand12 now acc.1 kv.1 (SetVal.vstr kv.2)
            (!backup.includeEncrypted)).1,
          acc.2 + 1))
      (store, 0)
    (final.1, Except.ok final.2)

/-- Claim C3: restoreProperties with checksum verification on a backup whose
stored mapping hashes differently from its recorded checksum fails with the
checksum-mismatch IntegrityError and performs zero property writes - the
store it returns is the input store, untouched. -/
theorem C3_restore_fails_closed (pm : PropertiesManager) (rand12 : List Nat)
    (now : JsStr) (store : Store) (backup : Backup)
    (h : checksumOf backup.properties ≠ backup.checksum) :
    pm.restoreProperties rand12 now store backup true =
      (store, Except.error restoreMismatchMsg) := by
  simp [PropertiesManager.restoreProperties, h]

/-- Witness for C3 at a concrete tampered backup. -/
theorem C3_witness :
    checksumOf [] ≠ ([] : List Nat) ∧
    (PropertiesManager.mk (SecurityManager.mk [1])).restoreProperties [] [] []
      (Backup.mk [] "S" 0 false [] []) true =
      ([], Except.error restoreMismatchMsg) :=
  ⟨by decide,
    C3_restore_fails_closed (PropertiesManager.mk (SecurityManager.mk [1])) [] [] []
      (Backup.mk [] "S" 0 false [] []) (by decide)⟩

/-- A File of a Project: name, type and source text (the source carries its
JSON-parse classification so that manifest handling can be expressed). -/
structure GasFile where
  name : String
  ftype : String
  source : RawValue

/-- A remote Project as returned by projects.getContent: identifier, title
and the ordered file collection. -/
structure Project where
  scriptId : String
  title : String
  files : List GasFile

/-- The remote side: script identifier to Project. -/
abbrev Remote := List (String × Project)

/-- Remote lookup of a project. -/
def remoteGet : Remote → String → Option Project
  | [], _ => none
  | e :: rest, sid => if e.1 == sid then some e.2 else remoteGet rest sid

/-- Remote replacement of a project's content. -/
def remoteSet : Remote → String → Project → Remote
  | [], _, _ => []
  | e :: rest, sid, p => if e.1 == sid then (e.1, p) :: rest else e :: remoteSet rest sid p

/-- GASApiService.getProject (gas-api.js lines 114-144): fetch the project
content; a remote failure is rethrown wrapped. -/
def getProject (remote : Remote) (sid : String) : Except String Project :=
  match remoteGet remote sid with
  | some p => Except.ok p
  | none => Except.error "project fetch failed"

/-- GASApiService.updateProject (gas-api.js lines 148-172): write the whole
file collection back through projects.updateContent. -/
def updateProject (remote : Remote) (sid : String) (files : List GasFile) :
    Remote × Except String Unit :=
  match remoteGet remote sid with
  | none => (remote, Except.error "project update failed")
  | some p => (remoteSet remote sid { p with files := files }, Except.ok ())

/-- The in-memory mutation updateFile performs: findIndex by name, then
assign the new source into the found element. `none` is the findIndex = -1
case. Only the first file of the given name is modified, as in the source. -/
def setSourceFirst (fname : String) (source : RawValue) : List GasFile → Option (List GasFile)
  | [] => none
  | f :: fs =>
    if f.name == fname then some ({ f with source := source } :: fs)
    else (setSourceFirst fname source fs).map (fun fs2 => f :: fs2)

/-- The result object returned by updateFile. -/
structure UpdateFileResult where
  name : String
  source : RawValue
  updateTime : JsStr

/-- The wrapped message of the file-not-found Error thrown by updateFile. -/
def updateFileNotFoundMsg : String := "file update failed: file not found"

/-- GASApiService.updateFile (gas-api.js lines 241-273): fetch the whole
project, locate the file by name (throwing, with no remote write, when it
is absent), assign the new source and write the entire collection back. -/
def GASApiService.updateFile (remote : Remote) (sid fname : String) (source : RawValue)
    (now : JsStr) : Remote × Except String UpdateFileResult :=
  match getProject remote sid with
  | Except.error _ => (remote, Except.error "file update failed: project fetch failed")
  | Except.ok project =>
    match setSourceFirst fname source project.files with
    | none => (remote, Except.error updateFileNotFoundMsg)
    | some newFiles =>
      match updateProject remote sid newFiles with
      | (remote2, Except.ok _) =>
        (remote2, Except.ok { name := fname, source := source, updateTime := now })
      | (remote2, Except.error _) =>
        (remote2, Except.error "file update failed: project update failed")

theorem setSourceFirst_of_countP_zero (fname : String) (source : RawValue) :
    ∀ fs : List GasFile, fs.countP (fun f => f.name == fname) = 0 →
      setSourceFirst fname source fs = none := by
  intro fs
  induction fs with
  | nil => intro h; rfl
  | cons f t ih =>
    intro h
    rw [List.countP_cons] at h
    have hf : (f.name == fname) = false := by
      cases hc : (f.name == fname)
      · rfl
      · rw [hc] at h; simp at h
    have ht : t.countP (fun f => f.name == fname) = 0 := by
      rw [hf] at h; simpa using h
    simp [setSourceFirst, hf, ih ht]

theorem setSourceFirst_spec (fname : String) (source : RawValue) :
    ∀ (fs fs2 : List GasFile),
      fs.countP (fun f => f.name == fname) = 1 →
      setSourceFirst fname source fs = some fs2 →
      fs2.length = fs.length ∧
      ∀ (i : Nat) (hi : i < fs.length) (hi2 : i < fs2.length),
        (fs2.get ⟨i, hi2⟩).name = (fs.get ⟨i, hi⟩).name ∧
        (fs2.get ⟨i, hi2⟩).ftype = (fs.get ⟨i, hi⟩).ftype ∧
        (fs2.get ⟨i, hi2⟩).source =
          (if (fs.get ⟨i, hi⟩).name == fname then source else (fs.get ⟨i, hi⟩).source) := by
  intro fs
  induction fs with
  | nil => intro fs2 h; simp at h
  | cons f t ih =>
    intro fs2 hcount hset
    rw [List.countP_cons] at hcount
    cases hf : (f.name == fname) with
    | true =>
      have ht0 : t.countP (fun f => f.name == fname) = 0 := by
        rw [hf] at hcount; simpa using hcount
      rw [setSourceFirst, hf] at hset
      simp only [if_true] at hset
      have hfs2 := Option.some.inj hset
      subst hfs2
      refine ⟨by simp, ?_⟩
      intro i hi hi2
      cases i with
      | zero => simp [hf]
      | succ j =>
        have hj : j < t.length := by simpa using hi
        have hmem : t[j] ∈ t := List.getElem_mem hj
        have hnot := (List.countP_eq_zero.mp ht0) _ hmem
        have hne : t[j].name ≠ fname := fun hc => hnot (beq_iff_eq.mpr hc)
        refine ⟨by simp, by simp, ?_⟩
        simp [hne]
    | false =>
      have ht1 : t.countP (fun f => f.name == fname) = 1 := by
        rw [hf] at hcount; simpa using hcount
      rw [setSourceFirst, hf] at hset
      simp only [Bool.false_eq_true, if_false, Option.map_eq_some'] at hset
      rcases hset with ⟨t2, hset2, hfs2⟩
      subst hfs2
      rcases ih t2 ht1 hset2 with ⟨hlen, hpt⟩
      refine ⟨by simpa using hlen, ?_⟩
      intro i hi hi2
      cases i with
      | zero => simp [hf]
      | succ j =>
        have hj : j < t.length := by simpa using hi
        have hj2 : j < t2.length := by simpa using hi2
        have := hpt j hj hj2
        simpa [List.get_cons_succ] using this

/-- The file collection after updateFile's in-memory mutation, with the
original collection kept when no file matches. -/
def updatedFiles (fname : String) (source : RawValue) (fs : List GasFile) : List GasFile :=
  (setSourceFirst fname source fs).getD fs

/-- Claim C5: against a Project with exactly one file of the given name,
updateFile writes back a collection of the same length in which only the
matching file's source is changed (names and types all preserved, the other
sources untouched); against a Project with no matching file it fails with
the file-not-found error and leaves the remote state unchanged. -/
theorem C5_updateFile_frame (remote : Remote) (sid fname : String) (source : RawValue)
    (now : JsStr) (project : Project)
    (hp : remoteGet remote sid = some project) :
    (project.files.countP (fun f => f.name == fname) = 1 →
      GASApiService.updateFile remote sid fname source now =
        (remoteSet remote sid { project with files := updatedFiles fname source project.files },
          Except.ok { name := fname, source := source, updateTime := now }) ∧
      (updatedFiles fname source project.files).length = project.files.length ∧
      ∀ (i : Nat) (hi : i < project.files.length)
        (hi2 : i < (updatedFiles fname source project.files).length),
        ((updatedFiles fname source project.files).get ⟨i, hi2⟩).name =
          (project.files.get ⟨i, hi⟩).name ∧
        ((updatedFiles fname source project.files).get ⟨i, hi2⟩).ftype =
          (project.files.get ⟨i, hi⟩).ftype ∧
        ((updatedFiles fname source project.files).get ⟨i, hi2⟩).source =
          (if (project.files.get ⟨i, hi⟩).name == fname then source
           else (project.files.get ⟨i, hi⟩).source)) ∧
    (project.files.countP (fun f => f.name == fname) = 0 →
      GASApiService.updateFile remote sid fname source now =
        (remote, Except.error updateFileNotFoundMsg)) := by
  constructor
  · intro hone
    cases hset : setSourceFirst fname source project.files with
    | none =>
      exfalso
      revert hone hset
      induction project.files with
      | nil => intro hone _; simp at hone
      | cons f t ihf =>
        intro hone hset
        rw [List.countP_cons] at hone
        cases hf : (f.name == fname) with
        | true => rw [setSourceFirst, hf] at hset; simp at hset
        | false =>
          rw [setSourceFirst, hf] at hset
          simp only [Bool.false_eq_true, if_false, Option.map_eq_none'] at hset
          rw [hf] at hone
          exact ihf (by simpa using hone) hset
    | some newFiles =>
      have hupd : updatedFiles fname source project.files = newFiles := by
        simp [updatedFiles, hset]
      cases hupd
      rcases setSourceFirst_spec fname source project.files _ hone hset with ⟨hlen, hpt⟩
      refine ⟨?_, hlen, hpt⟩
      simp [GASApiService.updateFile, getProject, hp, hset, updateProject]
  · intro hzero
    have hnone := setSourceFirst_of_countP_zero fname source project.files hzero
    simp [GASApiService.updateFile, getProject, hp, hnone]

/-- A demonstration remote: one project with files main and lib. -/
def demoProject : Project :=
  { scriptId := "S", title := "Demo",
    files :=
      [{ name := "main", ftype := "SERVER_JS", source := RawValue.plainText [102, 49] },
       { name := "lib", ftype := "SERVER_JS", source := RawValue.plainText [103, 50] }] }

/-- A demonstration remote state holding demoProject under id S. -/
def demoRemote : Remote := [("S", demoProject)]

/-- Witness for C5: the matching-file branch and the missing-file branch at
a concrete two-file project. -/
theorem C5_witness :
    remoteGet demoRemote "S" = some demoProject ∧
    demoProject.files.countP (fun f => f.name == "main") = 1 ∧
    demoProject.files.countP (fun f => f.name == "absent") = 0 ∧
    GASApiService.updateFile demoRemote "S" "main" (RawValue.plainText [110]) [116] =
      (remoteSet demoRemote "S"
        { demoProject with files := updatedFiles "main" (RawValue.plainText [110]) demoProject.files },
        Except.ok { name := "main", source := RawValue.plainText [110], updateTime := [116] }) ∧
    GASApiService.updateFile demoRemote "S" "absent" (RawValue.plainText [110]) [116] =
      (demoRemote, Except.error updateFileNotFoundMsg) := by
  refine ⟨rfl, by decide, by decide, ?_, ?_⟩
  · exact ((C5_updateFile_frame demoRemote "S" "main" (RawValue.plainText [110]) [116]
      demoProject rfl).1 (by decide)).1
  · exact (C5_updateFile_frame demoRemote "S" "absent" (RawValue.plainText [110]) [116]
      demoProject rfl).2 (by decide)

/-- The optional-chain read manifest.dependencies?.libraries: the first
access throws on a null manifest; a null or undefined dependencies value
short-circuits to undefined; otherwise libraries is read off it. -/
def jsOptChain (j : Json) (n1 n2 : String) : Except Unit (Option Json) :=
  match jsGet j n1 with
  | Except.error e => Except.error e
  | Except.ok none => Except.ok none
  | Except.ok (some Json.jnull) => Except.ok none
  | Except.ok (some d) =>
    match jsGet d n2 with
    | Except.error e => Except.error e
    | Except.ok r => Except.ok r

/-- The libraries value listLibraries computes:
manifest.dependencies?.libraries || [], where any falsy outcome falls back
to the empty array. -/
def librariesOf (manifest : Json) : Except Unit Json :=
  match jsOptChain manifest "dependencies" "libraries" with
  | Except.error e => Except.error e
  | Except.ok none => Except.ok (Json.jarr [])
  | Except.ok (some libs) => Except.ok (if jsTruthy libs then libs else Json.jarr [])

/-- The wrapped message of the Error listLibraries rethrows. -/
def listLibFailMsg : String := "library list failed"

/-- GASApiService.listLibraries (gas-api.js lines 617-640): a missing
manifest file returns an empty library list, but a manifest whose source
JSON.parse rejects makes the parse throw inside the try, so the call fails
with the wrapped error rather than returning the empty list. -/
def GASApiService.listLibraries (remote : Remote) (sid : String) : Except String Json :=
  match getProject remote sid with
  | Except.error _ => Except.error listLibFailMsg
  | Except.ok project =>
    match project.files.find? (fun f => f.name == "appsscript") with
    | none => Except.ok (Json.jarr [])
    | some manifestFile =>
      match jsonParse manifestFile.source with
      | none => Except.error listLibFailMsg
      | some manifest =>
        match librariesOf manifest with
        | Except.error _ => Except.error listLibFailMsg
        | Except.ok libs => Except.ok libs

/-- Setting an object field by assignment: replaces the field where present,
appends it otherwise. -/
def jsetField : List (String × Json) → String → Json → List (String × Json)
  | [], name, v => [(name, v)]
  | f :: fs, name, v => if f.1 == name then (name, v) :: fs else f :: jsetField fs name v

/-- The library entry object addLibrary pushes. -/
def newLibraryJson (identifier libraryId version : String) : Json :=
  Json.jobj
    [("userSymbol", Json.jstr (strBytes identifier)),
     ("libraryId", Json.jstr (strBytes libraryId)),
     ("version", Json.jstr (strBytes version))]

/-- The manifest mutation of addLibrary: a falsy dependencies field is
replaced by an empty object and a falsy libraries field by an empty array
before the push; any non-object manifest or dependencies, or non-array
libraries, makes the subsequent access or push throw (the error case). -/
def addLibManifestUpdate (manifest : Json) (libraryId version identifier : String) :
    Except Unit Json :=
  match manifest with
  | Json.jobj fs =>
    let deps :=
      match List.lookup "dependencies" fs with
      | some d => if jsTruthy d then d else Json.jobj []
      | none => Json.jobj []
    match deps with
    | Json.jobj dfs =>
      let libs :=
        match List.lookup "libraries" dfs with
        | some l => if jsTruthy l then l else Json.jarr []
        | none => Json.jarr []
      match libs with
      | Json.jarr xs =>
        Except.ok (Json.jobj (jsetField fs "dependencies" (Json.jobj
          (jsetField dfs "libraries"
            (Json.jarr (xs ++ [newLibraryJson identifier libraryId version]))))))
      | _ => Except.error ()
    | _ => Except.error ()
  | _ => Except.error ()

/-- The result object returned by addLibrary. -/
structure AddLibResult where
  added : String
  libraryId : String
  version : String
deriving DecidableEq

/-- The wrapped message when addLibrary finds no manifest file. -/
def addLibManifestMissingMsg : String := "library add failed: manifest file not found"

/-- GASApiService.addLibrary (gas-api.js lines 645-684): hard failure when
the manifest file is absent; otherwise parse, mutate and write the manifest
back through updateFile. -/
def GASApiService.addLibrary (remote : Remote) (sid libraryId version identifier : String)
    (now : JsStr) : Remote × Except String AddLibResult :=
  match getProject remote sid with
  | Except.error _ => (remote, Except.error "library add failed: project fetch failed")
  | Except.ok project =>
    match project.files.find? (fun f => f.name == "appsscript") with
    | none => (remote, Except.error addLibManifestMissingMsg)
    | some manifestFile =>
      match jsonParse manifestFile.source with
      | none => (remote, Except.error "library add failed: JSON parse error")
      | some manifest =>
        match addLibManifestUpdate manifest libraryId version identifier with
        | Except.error _ => (remote, Except.error "library add failed: TypeError")
        | Except.ok manifest2 =>
          match GASApiService.updateFile remote sid "appsscript" (RawValue.jsonText manifest2)
              now with
          | (remote2, Except.ok _) =>
            (remote2, Except.ok { added := identifier, libraryId := libraryId, version := version })
          | (remote2, Except.error _) =>
            (remote2, Except.error "library add failed: update failed")

/-- Whether a library entry's libraryId string equals the given id (the
strict string comparison of the filter and find callbacks; the entries this
code builds are always objects with a string libraryId). -/
def libMatchesId (lib : Json) (libraryId : String) : Bool :=
  match jsGet lib "libraryId" with
  | Except.ok (some (Json.jstr s)) => s == strBytes libraryId
  | _ => false

/-- The in-place assignment manifest.dependencies.libraries = v, defined on
the shapes reachable after the optional-chain guard (manifest and
dependencies both objects); other shapes throw. -/
def setDepsLibraries (manifest v : Json) : Except Unit Json :=
  match manifest with
  | Json.jobj fs =>
    match List.lookup "dependencies" fs with
    | some (Json.jobj dfs) =>
      Except.ok (Json.jobj (jsetField fs "dependencies"
        (Json.jobj (jsetField dfs "libraries" v))))
    | _ => Except.error ()
  | _ => Except.error ()

/-- The wrapped message when removeLibrary finds no manifest file. -/
def removeLibManifestMissingMsg : String := "library remove failed: manifest file not found"

/-- GASApiService.removeLibrary (gas-api.js lines 689-728): hard failure
when the manifest file is absent; with a manifest, a falsy
dependencies?.libraries throws, a filter that removes nothing throws
library-not-found, and otherwise the filtered list is written back. -/
def GASApiService.removeLibrary (remote : Remote) (sid libraryId : String) (now : JsStr) :
    Remote × Except String (String × Nat) :=
  match getProject remote sid with
  | Except.error _ => (remote, Except.error "library remove failed: project fetch failed")
  | Except.ok project =>
    match project.files.find? (fun f => f.name == "appsscript") with
    | none => (remote, Except.error removeLibManifestMissingMsg)
    | some manifestFile =>
      match jsonParse manifestFile.source with
      | none => (remote, Except.error "library remove failed: JSON parse error")
      | some manifest =>
        match jsOptChain manifest "dependencies" "libraries" with
        | Except.error _ => (remote, Except.error "library remove failed: TypeError")
        | Except.ok libsOpt =>
          if optTruthy libsOpt = false then
            (remote, Except.error "library remove failed: no libraries configured")
          else
            match libsOpt with
            | some (Json.jarr xs) =>
              let filtered := xs.filter (fun lib => !libMatchesId lib libraryId)
              if filtered.length = xs.length then
                (remote, Except.error "library remove failed: library not found")
              else
                match setDepsLibraries manifest (Json.jarr filtered) with
                | Except.error _ => (remote, Except.error "library remove failed: TypeError")
                | Except.ok manifest2 =>
                  match GASApiService.updateFile remote sid "appsscript"
                      (RawValue.jsonText manifest2) now with
                  | (remote2, Except.ok _) =>
                    (remote2, Except.ok (libraryId, filtered.length))
                  | (remote2, Except.error _) =>
                    (remote2, Except.error "library remove failed: update failed")
            | _ => (remote, Except.error "library remove failed: TypeError")

/-- Replace the first library entry matching the id with a copy whose
version field is reassigned (the find-then-mutate of updateLibrary);
none when no entry matches. -/
def setVersionFirst (libraryId newVersion : String) : List Json → Option (List Json)
  | [] => none
  | lib :: rest =>
    if libMatchesId lib libraryId then
      match lib with
      | Json.jobj lfs =>
        some (Json.jobj (jsetField lfs "version" (Json.jstr (strBytes newVersion))) :: rest)
      | _ => none
    else (setVersionFirst libraryId newVersion rest).map (fun r => lib :: r)

/-- The wrapped message when updateLibrary finds no manifest file. -/
def updateLibManifestMissingMsg : String := "library update failed: manifest file not found"

/-- GASApiService.updateLibrary (gas-api.js lines 733-776): hard failure
when the manifest file is absent; with a manifest, a falsy
dependencies?.libraries throws, a missing entry throws library-not-found,
and otherwise the found entry's version is reassigned and written back. -/
def GASApiService.updateLibrary (remote : Remote) (sid libraryId newVersion : String)
    (now : JsStr) : Remote × Except String (String × String) :=
  match getProject remote sid with
  | Except.error _ => (remote, Except.error "library update failed: project fetch failed")
  | Except.ok project =>
    match project.files.find? (fun f => f.name == "appsscript") with
    | none => (remote, Except.error updateLibManifestMissingMsg)
    | some manifestFile =>
      match jsonParse manifestFile.source with
      | none => (remote, Except.error "library update failed: JSON parse error")
      | some manifest =>
        match jsOptChain manifest "dependencies" "libraries" with
        | Except.error _ => (remote, Except.error "library update failed: TypeError")
        | Except.ok libsOpt =>
          if optTruthy libsOpt = false then
            (remote, Except.error "library update failed: no libraries configured")
          else
            match libsOpt with
            | some (Json.jarr xs) =>
              match setVersionFirst libraryId newVersion xs with
              | none => (remote, Except.error "library update failed: library not found")
              | some xs2 =>
                match setDepsLibraries manifest (Json.jarr xs2) with
                | Except.error _ => (remote, Except.error "library update failed: TypeError")
                | Except.ok manifest2 =>
                  match GASApiService.updateFile remote sid "appsscript"
                      (RawValue.jsonText manifest2) now with
                  | (remote2, Except.ok _) =>
                    (remote2, Except.ok (libraryId, newVersion))
                  | (remote2, Except.error _) =>
                    (remote2, Except.error "library update failed: update failed")
            | _ => (remote, Except.error "library update failed: TypeError")

/-- Claim C7 (amended): when the manifest file is missing, listLibraries
returns the empty library list while addLibrary, removeLibrary and
updateLibrary all fail without touching the remote state; but when the
manifest file exists with content that does not parse as JSON, listLibraries
fails with an error rather than returning the empty list. -/
theorem C7_manifest_handling (remote : Remote) (sid : String) (project : Project)
    (libraryId version identifier newVersion : String) (now : JsStr)
    (hp : remoteGet remote sid = some project) :
    (project.files.find? (fun f => f.name == "appsscript") = none →
      GASApiService.listLibraries remote sid = Except.ok (Json.jarr []) ∧
      GASApiService.addLibrary remote sid libraryId version identifier now =
        (remote, Except.error addLibManifestMissingMsg) ∧
      GASApiService.removeLibrary remote sid libraryId now =
        (remote, Except.error removeLibManifestMissingMsg) ∧
      GASApiService.updateLibrary remote sid libraryId newVersion now =
        (remote, Except.error updateLibManifestMissingMsg)) ∧
    (∀ mf, project.files.find? (fun f => f.name == "appsscript") = some mf →
      jsonParse mf.source = none →
      GASApiService.listLibraries remote sid = Except.error listLibFailMsg) := by
  constructor
  · intro hnone
    refine ⟨?_, ?_, ?_, ?_⟩ <;>
      simp [GASApiService.listLibraries, GASApiService.addLibrary,
        GASApiService.removeLibrary, GASApiService.updateLibrary, getProject, hp, hnone]
  · intro mf hmf hparse
    simp [GASApiService.listLibraries, getProject, hp, hmf, hparse]

/-- A project whose manifest file content is not parseable as JSON. -/
def badManifestProject : Project :=
  { scriptId := "S", title := "Demo",
    files :=
      [{ name := "appsscript", ftype := "JSON",
         source := RawValue.plainText [110, 111, 116, 32, 106, 115, 111, 110] }] }

/-- A project with no manifest file at all. -/
def noManifestProject : Project :=
  { scriptId := "S", title := "Demo",
    files := [{ name := "main", ftype := "SERVER_JS", source := RawValue.plainText [] }] }

/-- Counterexample to claim C7 as stated: with a malformed (non-JSON)
manifest present, listLibraries fails with an error instead of returning
the empty library list. -/
theorem C7_counterexample :
    GASApiService.listLibraries [("S", badManifestProject)] "S" = Except.error listLibFailMsg ∧
    GASApiService.listLibraries [("S", badManifestProject)] "S" ≠ Except.ok (Json.jarr []) := by
  have h1 : GASApiService.listLibraries [("S", badManifestProject)] "S" =
      Except.error listLibFailMsg := rfl
  refine ⟨h1, ?_⟩
  rw [h1]
  exact fun h => Except.noConfusion h

/-- Witness for C7 at the two concrete projects. -/
theorem C7_witness :
    remoteGet [("S", noManifestProject)] "S" = some noManifestProject ∧
    noManifestProject.files.find? (fun f => f.name == "appsscript") = none ∧
    (GASApiService.listLibraries [("S", noManifestProject)] "S" = Except.ok (Json.jarr []) ∧
      GASApiService.addLibrary [("S", noManifestProject)] "S" "L" "1" "Lib" [] =
        ([("S", noManifestProject)], Except.error addLibManifestMissingMsg) ∧
      GASApiService.removeLibrary [("S", noManifestProject)] "S" "L" [] =
        ([("S", noManifestProject)], Except.error removeLibManifestMissingMsg) ∧
      GASApiService.updateLibrary [("S", noManifestProject)] "S" "L" "2" [] =
        ([("S", noManifestProject)], Except.error updateLibManifestMissingMsg)) ∧
    GASApiService.listLibraries [("S", badManifestProject)] "S" = Except.error listLibFailMsg := by
  refine ⟨rfl, rfl, ?_, ?_⟩
  · exact (C7_manifest_handling [("S", noManifestProject)] "S" noManifestProject
      "L" "1" "Lib" "2" [] rfl).1 rfl
  · exact (C7_manifest_handling [("S", badManifestProject)] "S" badManifestProject
      "L" "1" "Lib" "2" [] rfl).2
      { name := "appsscript", ftype := "JSON",
        source := RawValue.plainText [110, 111, 116, 32, 106, 115, 111, 110] } rfl rfl

/-- The local filesystem seen by ClaspService: path to file content; later
writes shadow earlier ones. -/
abbrev FileSys := List (String × JsStr)

/-- fs.access / fs.readFile: the file's content when the path exists. -/
def fsGet : FileSys → String → Option JsStr
  | [], _ => none
  | e :: rest, p => if e.1 == p then some e.2 else fsGet rest p

/-- fs.copyFile target write. -/
def fsSet (fs : FileSys) (p : String) (content : JsStr) : FileSys := (p, content) :: fs

/-- path.join of a directory and a file name. -/
def pathJoin (a b : String) : String := a ++ "/" ++ b

/-- The allowed environments of ClaspService (gas-api.js line 873). -/
def claspEnvironments : List String := ["development", "staging", "production"]

/-- The environment-specific configuration file name. -/
def envConfigName (env : String) : String := ".clasp." ++ env ++ ".json"

/-- ClaspService.switchEnvironment (gas-api.js lines 1277-1306): validates
the environment name, then checks the environment-specific file with
fs.access - a missing file throws Environment config not found before any
copy happens; otherwise the active .clasp.json is backed up best-effort
(skipped when absent) and the environment file is copied over it. -/
def ClaspService.switchEnvironment (fs : FileSys) (projectDir env : String) :
    FileSys × Except String Unit :=
  if claspEnvironments.contains env then
    match fsGet fs (pathJoin projectDir (envConfigName env)) with
    | none => (fs, Except.error ("Environment config not found: " ++ env))
    | some content =>
      let fs1 :=
        match fsGet fs (pathJoin projectDir ".clasp.json") with
        | some c => fsSet fs (pathJoin projectDir ".clasp.backup.json") c
        | none => fs
      (fsSet fs1 (pathJoin projectDir ".clasp.json") content, Except.ok ())
  else (fs, Except.error ("Invalid environment: " ++ env))

/-- One subprocess invocation: the argv executeClaspCommand would exec. -/
abbrev SpawnedCmd := List JsStr

/-- The captured output of a completed subprocess. -/
structure CmdResult where
  stdout : JsStr
  stderr : JsStr

/-- The external world: what each spawned clasp subprocess does (a failure
models a non-zero exit or the 30 second timeout rejection). -/
abbrev ClaspWorld := SpawnedCmd → Except String CmdResult

/-- Decimal digits of a number, as code points. -/
def natRender (v : Nat) : JsStr := (Nat.toDigits 10 v).map Char.toNat

/-- Code points splitting on a separator (String.prototype.split). -/
def splitOn (sep : Nat) : JsStr → List JsStr
  | [] => [[]]
  | c :: rest =>
    let r := splitOn sep rest
    if c == sep then [] :: r
    else
      match r with
      | h :: t => (c :: h) :: t
      | [] => [[c]]

/-- Whitespace for String.prototype.trim. -/
def isWsCp (c : Nat) : Bool := c == 32 || c == 9 || c == 10 || c == 13

/-- String.prototype.trim on code points. -/
def trimCp (s : JsStr) : JsStr := ((s.dropWhile isWsCp).reverse.dropWhile isWsCp).reverse

/-- ClaspService.parseClaspPullOutput (gas-api.js lines 1385-1399): keep the
lines containing a tree-drawing connector, take the text after the last
horizontal bar, trimmed, and drop empties. -/
def parseClaspPullOutput (out : JsStr) : List JsStr :=
  (splitOn 10 out).foldr
    (fun line acc =>
      if listIncludes line [9492, 9472] || listIncludes line [9500, 9472] then
        let fileName := trimCp ((splitOn 9472 line).getLastD [])
        if fileName.isEmpty then acc else fileName :: acc
      else acc)
    []

/-- The clasp pull argv. -/
def pullCmd (versionNumber : Option Nat) : SpawnedCmd :=
  [strBytes "clasp", strBytes "pull"] ++
    (match versionNumber with
     | some v => [strBytes "--versionNumber", natRender v]
     | none => [])

/-- The result object of pullChanges. -/
structure PullResult where
  projectDir : String
  environment : Option String
  changedFiles : List JsStr
  success : Bool

/-- The pull execution after any environment switch: spawn clasp pull and
parse the changed files from its stdout. -/
def pullRun (world : ClaspWorld) (fs : FileSys) (projectDir : String)
    (environment : Option String) (versionNumber : Option Nat) :
    FileSys × List SpawnedCmd × Except String PullResult :=
  match world (pullCmd versionNumber) with
  | Except.error e =>
    (fs, [pullCmd versionNumber], Except.error ("Pull changes failed: " ++ e))
  | Except.ok r =>
    (fs, [pullCmd versionNumber],
      Except.ok
        { projectDir := projectDir, environment := environment,
          changedFiles := parseClaspPullOutput r.stdout, success := true })

/-- ClaspService.pullChanges (gas-api.js lines 1033-1068): when an
environment is requested the switch runs first and its failure is rethrown
wrapped before any subprocess is spawned; then clasp pull runs and its
output is parsed. The middle component of the result lists every
subprocess this call spawned. -/
def ClaspService.pullChanges (world : ClaspWorld) (fs : FileSys) (projectDir : String)
    (environment : Option String) (versionNumber : Option Nat) :
    FileSys × List SpawnedCmd × Except String PullResult :=
  match environment with
  | some env =>
    match ClaspService.switchEnvironment fs projectDir env with
    | (fs2, Except.error e) => (fs2, [], Except.error ("Pull changes failed: " ++ e))
    | (fs2, Except.ok _) => pullRun world fs2 projectDir (some env) versionNumber
  | none => pullRun world fs projectDir none versionNumber

/-- The clasp push argv with its optional flags. -/
def pushCmd (watch force : Bool) : SpawnedCmd :=
  [strBytes "clasp", strBytes "push"] ++
    (if watch then [strBytes "--watch"] else []) ++
    (if force then [strBytes "--force"] else [])

/-- The clasp deploy argv: the description is always passed (defaulted when
absent) and quoted; the version number is optional. -/
def deployCmd (description : JsStr) (versionNumber : Option Nat) : SpawnedCmd :=
  [strBytes "clasp", strBytes "deploy", strBytes "--description", 34 :: description ++ [34]] ++
    (match versionNumber with
     | some v => [strBytes "--versionNumber", natRender v]
     | none => [])

/-- The deploy URL marker extractDeployUrl scans for. -/
def deployUrlNeedle : JsStr := strBytes "https://script.google.com/macros/s/"

/-- ClaspService.extractDeployUrl (gas-api.js lines 1432-1440): the first
line containing the marker, trimmed; null when absent. -/
def extractDeployUrl (out : JsStr) : Option JsStr :=
  (splitOn 10 out).findSome?
    (fun line => if listIncludes line deployUrlNeedle then some (trimCp line) else none)

/-- The options object of pushAndDeploy. -/
structure PushOptions where
  environment : Option String
  watch : Bool
  force : Bool
  deploy : Bool
  deployDescription : Option JsStr
  versionNumber : Option Nat

/-- The result object of pushAndDeploy. -/
structure PushDeployResult where
  projectDir : String
  environment : Option String
  pushOutput : JsStr
  deployOutput : Option JsStr
  deployUrl : Option JsStr
  success : Bool

/-- The push-then-deploy execution after any environment switch. -/
def pushRun (world : ClaspWorld) (fs : FileSys) (projectDir : String)
    (opts : PushOptions) (now : JsStr) :
    FileSys × List SpawnedCmd × Except String PushDeployResult :=
  let pcmd := pushCmd opts.watch opts.force
  match world pcmd with
  | Except.error e => (fs, [pcmd], Except.error ("Push and deploy failed: " ++ e))
  | Except.ok pres =>
    if opts.deploy then
      let desc :=
        match opts.deployDescription with
        | some d => d
        | none => strBytes "Deploy " ++ now
      let dcmd := deployCmd desc opts.versionNumber
      match world dcmd with
      | Except.error e => (fs, [pcmd, dcmd], Except.error ("Push and deploy failed: " ++ e))
      | Except.ok dres =>
        (fs, [pcmd, dcmd],
          Except.ok
            { projectDir := projectDir, environment := opts.environment,
              pushOutput := pres.stdout, deployOutput := some dres.stdout,
              deployUrl := extractDeployUrl dres.stdout, success := true })
    else
      (fs, [pcmd],
        Except.ok
          { projectDir := projectDir, environment := opts.environment,
            pushOutput := pres.stdout, deployOutput := none, deployUrl := none,
            success := true })

/-- ClaspService.pushAndDeploy (gas-api.js lines 1072-1128): when an
environment is requested the switch runs first and its failure is rethrown
wrapped before any subprocess is spawned; then clasp push runs, followed by
clasp deploy unless deployment was opted out. -/
def ClaspService.pushAndDeploy (world : ClaspWorld) (fs : FileSys) (projectDir : String)
    (opts : PushOptions) (now : JsStr) :
    FileSys × List SpawnedCmd × Except String PushDeployResult :=
  match opts.environment with
  | some env =>
    match ClaspService.switchEnvironment fs projectDir env with
    | (fs2, Except.error e) => (fs2, [], Except.error ("Push and deploy failed: " ++ e))
    | (fs2, Except.ok _) => pushRun world fs2 projectDir opts now
  | none => pushRun world fs projectDir opts now

/-- Claim C8: for an allowed environment name whose environment-specific
configuration file does not exist, switchEnvironment fails with the
config-not-found error, leaving the filesystem (in particular the active
.clasp.json) untouched; and pullChanges and pushAndDeploy requesting that
environment fail the same way with an empty spawn trace - no subprocess is
ever spawned. -/
theorem C8_missing_env_config (world : ClaspWorld) (fs : FileSys)
    (projectDir env : String) (versionNumber : Option Nat)
    (watch force deployFlag : Bool) (deployDescription : Option JsStr) (now : JsStr)
    (henv : claspEnvironments.contains env = true)
    (hmissing : fsGet fs (pathJoin projectDir (envConfigName env)) = none) :
    ClaspService.switchEnvironment fs projectDir env =
      (fs, Except.error ("Environment config not found: " ++ env)) ∧
    ClaspService.pullChanges world fs projectDir (some env) versionNumber =
      (fs, [], Except.error ("Pull changes failed: " ++ ("Environment config not found: " ++ env))) ∧
    ClaspService.pushAndDeploy world fs projectDir
        (PushOptions.mk (some env) watch force deployFlag deployDescription versionNumber) now =
      (fs, [],
        Except.error ("Push and deploy failed: " ++ ("Environment config not found: " ++ env))) ∧
    fsGet (ClaspService.switchEnvironment fs projectDir env).1
        (pathJoin projectDir ".clasp.json") =
      fsGet fs (pathJoin projectDir ".clasp.json") := by
  have hmem : env ∈ claspEnvironments := by simpa using henv
  have hsw : ClaspService.switchEnvironment fs projectDir env =
      (fs, Except.error ("Environment config not found: " ++ env)) := by
    simp [ClaspService.switchEnvironment, hmem, hmissing]
  refine ⟨hsw, ?_, ?_, by rw [hsw]⟩
  · simp [ClaspService.pullChanges, hsw]
  · simp [ClaspService.pushAndDeploy, hsw]

/-- Witness for C8: requesting production in a directory with no
.clasp.production.json. -/
theorem C8_witness :
    claspEnvironments.contains "production" = true ∧
    fsGet [] (pathJoin "proj" (envConfigName "production")) = none ∧
    (ClaspService.switchEnvironment [] "proj" "production" =
      ([], Except.error ("Environment config not found: " ++ "production")) ∧
    ClaspService.pullChanges (fun _ => Except.error "no subprocess") [] "proj"
        (some "production") none =
      ([], [],
        Except.error ("Pull changes failed: " ++
          ("Environment config not found: " ++ "production"))) ∧
    ClaspService.pushAndDeploy (fun _ => Except.error "no subprocess") [] "proj"
        (PushOptions.mk (some "production") false false true none none) [] =
      ([], [],
        Except.error ("Push and deploy failed: " ++
          ("Environment config not found: " ++ "production"))) ∧
    fsGet (ClaspService.switchEnvironment [] "proj" "production").1
        (pathJoin "proj" ".clasp.json") =
      fsGet [] (pathJoin "proj" ".clasp.json")) :=
  ⟨by decide, rfl,
    C8_missing_env_config (fun _ => Except.error "no subprocess") [] "proj" "production"
      none false false true none [] (by decide) rfl⟩

end GasMcp
